import Mathlib

/-!
# Verification of the nexi-server presence / messaging / social-graph relay

Shallow embedding of the realtime relay's core logic: the in-memory
presence directory (`onlineUsers : Map<string, string>` keyed by auth0Id),
the `sendMessage` socket handler (recipient lookup, persist, live delivery,
push notification with invalid-token self-healing, sender acknowledgment),
and the `followUser` / `unfollowUser` cloud functions with their
denormalized `followingCount` / `followersCount` counters on `_User`.

The external Object Store is modelled as explicit in-process lists
(`users`, `profiles`, `messages`, `edges`) with Parse's observable
semantics: `Query.first` is a first-match scan, `increment` is plain
arithmetic on the fetched record followed by a save, `destroy` removes the
fetched record.  The external Push Notifier is a parameter
`String → NotifierResult` and each invocation is recorded as an observable
`notifierSend` event.  JS `Map` objects are association lists in insertion
order with unique keys; JS string falsiness (`!s` true for the empty
string and for a missing argument) is modelled by the empty string.
-/

namespace Nexi

/-- A `UserProfile` record: messaging profile fields used by the
`sendMessage` handler (`username`, `profilePicUrl`, `fcmToken`), keyed by
`auth0Id`. `none` models an absent/unset Parse field. -/
structure Profile where
  auth0Id : String
  username : Option String
  profilePicUrl : Option String
  fcmToken : Option String
deriving Repr, DecidableEq

/-- A `_User` record as mutated by the follow/unfollow cloud functions:
the denormalized counters.  Counters are integers (JS numbers under
`increment`), so nothing in the representation itself prevents them
from going negative. -/
structure UserRec where
  auth0Id : String
  followingCount : Int
  followersCount : Int
deriving Repr, DecidableEq

/-- A `_Follow` edge. The cloud-function variant stores `_User` pointers
(`follower`/`following`); the socket-handler variant stores the auth0Id
strings (`fromAuth0Id`/`toAuth0Id`).  Both are a directed pair of
identities, modelled by the identities themselves. -/
structure FollowEdge where
  follower : String
  following : String
deriving Repr, DecidableEq

/-- A persisted `Message` record.  `objectId` and `createdAt` are assigned
by the store at save time (`createdAt` in epoch milliseconds; the handlers
serialize it with the external `Date.toISOString`). -/
structure Message where
  objectId : String
  senderId : String
  receiverId : String
  text : String
  createdAt : Nat
deriving Repr, DecidableEq

/-- The Object Store visible to the relay, plus the store-side id counter
and clock used to stamp new records. -/
structure Store where
  users : List UserRec
  profiles : List Profile
  messages : List Message
  edges : List FollowEdge
  nextId : Nat
  now : Nat
deriving Repr, DecidableEq

/-! ## Presence Directory

`onlineUsers` is a JS `Map<string, string>` from auth0Id to socket id:
an association list in insertion order whose keys are unique. -/

/-- The in-memory presence directory. -/
abbrev OnlineMap := List (String × String)

/-- Model of `Map.prototype.set`: overwrite the value at an existing key in place,
otherwise append the new entry. -/
def mapSet : OnlineMap → String → String → OnlineMap
  | [], k, v => [(k, v)]
  | (k0, v0) :: rest, k, v =>
      if k0 == k then (k, v) :: rest else (k0, v0) :: mapSet rest k v

/-- Model of `onlineUsers.get(id)`: resolve an identity to its live socket id. -/
def resolve (m : OnlineMap) (k : String) : Option String :=
  (m.find? (fun e => e.1 == k)).map (·.2)

/-- The unguarded `join` handler (`src/unnamed/part_000` lines 166-169 and
most other variants): `onlineUsers.set(auth0Id, socket.id)` with no check
on the identity. -/
def joinUnguarded (m : OnlineMap) (auth0Id sockId : String) : OnlineMap :=
  mapSet m auth0Id sockId

/-- The guarded `join` handler (`src/index.ts` lines 513-518):
`if (!auth0Id) return;` before the `set`, so a falsy (missing/empty)
identity is ignored. -/
def joinGuarded (m : OnlineMap) (auth0Id sockId : String) : OnlineMap :=
  if auth0Id == "" then m else mapSet m auth0Id sockId

/-- The `disconnect` handler without `break` (`src/index.ts` lines
133-137): scan the whole directory and delete every entry whose socket id
matches the closing connection. -/
def disconnectAll (m : OnlineMap) (sockId : String) : OnlineMap :=
  m.filter (fun e => !(e.2 == sockId))

/-- The `disconnect` handler with `break` (`src/index.ts` lines 616-624,
`src/unnamed/part_006` lines 190-198): delete the first entry whose
socket id matches and stop scanning. -/
def disconnectBreak : OnlineMap → String → OnlineMap
  | [], _ => []
  | (k, v) :: rest, sockId =>
      if v == sockId then rest else (k, v) :: disconnectBreak rest sockId

/-! ### Presence-directory lemmas -/

/-- Keys of `mapSet m k v` are among `k` and the keys of `m`. -/
theorem keys_mapSet_subset (m : OnlineMap) (k v : String) :
    ∀ x ∈ (mapSet m k v).map Prod.fst, x = k ∨ x ∈ m.map Prod.fst := by
  induction m with
  | nil => simp [mapSet]
  | cons e rest ih =>
      obtain ⟨k0, v0⟩ := e
      simp only [mapSet]
      by_cases h : (k0 == k) = true
      · simp only [h, if_pos]
        intro x hx
        rcases List.mem_map.mp hx with ⟨p, hp, rfl⟩
        rcases List.mem_cons.mp hp with rfl | hmem
        · exact Or.inl rfl
        · exact Or.inr (List.mem_map.mpr ⟨p, List.mem_cons_of_mem _ hmem, rfl⟩)
      · simp only [h, if_neg, Bool.false_eq_true, not_false_iff]
        intro x hx
        rcases List.mem_map.mp hx with ⟨p, hp, rfl⟩
        rcases List.mem_cons.mp hp with rfl | hmem
        · exact Or.inr (List.mem_map.mpr ⟨(k0, v0), List.mem_cons_self _ _, rfl⟩)
        · rcases ih (p.1) (List.mem_map.mpr ⟨p, hmem, rfl⟩) with h1 | h1
          · exact Or.inl h1
          · exact Or.inr (List.mem_map.mpr (by
              rcases List.mem_map.mp h1 with ⟨q, hq, hq2⟩
              exact ⟨q, List.mem_cons_of_mem _ hq, hq2⟩))

/-- The operation `mapSet` preserves uniqueness of keys. -/
theorem nodupKeys_mapSet (m : OnlineMap) (k v : String)
    (hm : (m.map Prod.fst).Nodup) : ((mapSet m k v).map Prod.fst).Nodup := by
  induction m with
  | nil => simp [mapSet]
  | cons e rest ih =>
      obtain ⟨k0, v0⟩ := e
      simp only [List.map_cons, List.nodup_cons] at hm
      simp only [mapSet]
      by_cases h : (k0 == k) = true
      · have hk : k0 = k := by simpa using h
        subst hk
        simp only [h, if_pos, List.map_cons, List.nodup_cons]
        exact ⟨hm.1, hm.2⟩
      · simp only [h, if_neg, Bool.false_eq_true, not_false_iff,
          List.map_cons, List.nodup_cons]
        refine ⟨fun hc => ?_, ih hm.2⟩
        rcases keys_mapSet_subset rest k v k0 hc with h1 | h1
        · exact h (by simpa using h1)
        · exact hm.1 h1

/-- Resolving the key just written by `mapSet` yields the new value. -/
theorem resolve_mapSet_same (m : OnlineMap) (k v : String) :
    resolve (mapSet m k v) k = some v := by
  induction m with
  | nil => simp [mapSet, resolve]
  | cons e rest ih =>
      obtain ⟨k0, v0⟩ := e
      simp only [mapSet]
      by_cases h : (k0 == k) = true
      · simp [h, resolve]
      · simp only [h, if_neg, Bool.false_eq_true, not_false_iff]
        simpa [resolve, h] using ih

/-- Under unique keys, every entry of `mapSet m k v` at key `k` carries the
value `v` (there is exactly one such entry). -/
theorem mem_mapSet_key (m : OnlineMap) (k v : String)
    (hm : (m.map Prod.fst).Nodup) :
    ∀ e ∈ mapSet m k v, e.1 = k → e.2 = v := by
  induction m with
  | nil =>
      intro e he _
      simp only [mapSet, List.mem_singleton] at he
      subst he; rfl
  | cons p rest ih =>
      obtain ⟨k0, v0⟩ := p
      simp only [List.map_cons, List.nodup_cons] at hm
      intro e he hk
      simp only [mapSet] at he
      by_cases h : (k0 == k) = true
      · rw [if_pos h] at he
        rcases List.mem_cons.mp he with rfl | hmem
        · rfl
        · exfalso
          have hk0 : k0 = k := by simpa using h
          subst hk0
          exact hm.1 (hk ▸ List.mem_map.mpr ⟨e, hmem, rfl⟩)
      · rw [if_neg (by simpa using h)] at he
        rcases List.mem_cons.mp he with rfl | hmem
        · exact absurd (show k0 = k by simpa using hk) (by simpa using h)
        · exact ih hm.2 e hmem hk

/-- If every entry of the directory at key `x` carries socket id `c`, then
after the full-scan disconnect cleanup for `c` the key `x` no longer
resolves. -/
theorem resolve_disconnectAll_eq_none (m : OnlineMap) (x c : String)
    (h : ∀ e ∈ m, e.1 = x → e.2 = c) :
    resolve (disconnectAll m c) x = none := by
  rw [resolve, Option.map_eq_none', List.find?_eq_none]
  intro e he
  rw [disconnectAll, List.mem_filter] at he
  intro hx
  have h1 : e.2 = c := h e he.1 (by simpa using hx)
  have h2 := he.2
  rw [h1] at h2
  simp at h2

/-- The `disconnectBreak` scan deletes at most one entry. -/
theorem length_disconnectBreak (m : OnlineMap) (sid : String) :
    m.length ≤ (disconnectBreak m sid).length + 1 := by
  induction m with
  | nil => simp [disconnectBreak]
  | cons e rest ih =>
      obtain ⟨k, v⟩ := e
      simp only [disconnectBreak]
      by_cases h : (v == sid) = true
      · simp [h]
      · simp only [h, if_neg, Bool.false_eq_true, not_false_iff,
          List.length_cons]
        omega

/-! ## Claim theorems: presence directory -/

/-- C5 counterexample: in the unguarded `join` handler variants
(`src/unnamed/part_000` lines 166-169), a join carrying the empty identity
is NOT ignored: it mutates the directory and creates a presence entry
keyed by the empty string, which then resolves. -/
theorem joinUnguarded_empty_creates_entry :
    joinUnguarded [] "" "s1" = [("", "s1")] ∧
    resolve (joinUnguarded [] "" "s1") "" = some "s1" := by decide

/-- C5 (amended): only the guarded `join` handler (`src/index.ts` lines
513-518, `if (!auth0Id) return`) treats a missing/empty identity as a
silent no-op, leaving the Presence Directory unchanged. -/
theorem joinGuarded_empty_noop (m : OnlineMap) (sockId : String) :
    joinGuarded m "" sockId = m := by
  simp [joinGuarded]

/-- C9: last join wins, and closing the winning connection removes the
identity's entry entirely.  After `join(X, conn1)` then `join(X, conn2)`,
`resolve(X)` yields `conn2`; after the (full-scan) disconnect cleanup for
`conn2`, `resolve(X)` is absent.  The hypothesis states that the directory
is a well-formed JS `Map` (unique keys). -/
theorem join_lastWriteWins (m : OnlineMap) (x c1 c2 : String)
    (hm : (m.map Prod.fst).Nodup) :
    resolve (joinUnguarded (joinUnguarded m x c1) x c2) x = some c2 ∧
    resolve (disconnectAll (joinUnguarded (joinUnguarded m x c1) x c2) c2) x
      = none := by
  refine ⟨resolve_mapSet_same _ _ _, ?_⟩
  apply resolve_disconnectAll_eq_none
  exact mem_mapSet_key _ _ _ (nodupKeys_mapSet _ _ _ hm)

/-- C9 witness: concrete run on a one-entry directory. -/
theorem join_lastWriteWins_witness :
    (([("y", "s9")] : OnlineMap).map Prod.fst).Nodup ∧
    (resolve (joinUnguarded (joinUnguarded [("y", "s9")] "x" "s1") "x" "s2")
        "x" = some "s2" ∧
     resolve (disconnectAll
        (joinUnguarded (joinUnguarded [("y", "s9")] "x" "s1") "x" "s2") "s2")
        "x" = none) :=
  ⟨by decide, join_lastWriteWins [("y", "s9")] "x" "s1" "s2" (by decide)⟩

/-- C10: the `break` disconnect variants remove at most one entry per
close, and on a directory where two distinct identities map to the same
socket id, closing that socket leaves the second identity still resolving
to the now-closed handle. -/
theorem disconnectBreak_stale_entry :
    (∀ (m : OnlineMap) (sid : String),
        m.length ≤ (disconnectBreak m sid).length + 1) ∧
    disconnectBreak [("a", "s1"), ("b", "s1")] "s1" = [("b", "s1")] ∧
    resolve (disconnectBreak [("a", "s1"), ("b", "s1")] "s1") "b"
      = some "s1" :=
  ⟨length_disconnectBreak, by decide⟩

/-! ## Social Graph Relay

The `followUser` / `unfollowUser` cloud functions
(`src/unnamed/part_000` lines 105-157, identical in part_004/part_005)
and the socket `unfollowUser` handler (`src/index.ts` lines 588-613). -/

/-- Outcome of a follow/unfollow cloud-function call.  The code signals
everything but `success` by `throw`ing a string; the strings are
`"Missing IDs"`, `"Cannot follow self"`, `"User not found"`,
`"Already following"` and `"Not following"`. -/
inductive FollowResult where
  | missingIds
  | selfFollow
  | userNotFound
  | alreadyFollowing
  | notFollowing
  | success
deriving Repr, DecidableEq

/-- Parse `fetch`-mutate-`save` on the first `_User` record matching an
auth0Id (the record returned by `Query.first`): update it in place, leave
every other record untouched. -/
def updateUser (l : List UserRec) (id : String) (f : UserRec → UserRec) :
    List UserRec :=
  match l with
  | [] => []
  | u :: rest =>
      if u.auth0Id == id then f u :: rest else u :: updateUser rest id f

/-- Model of `me.increment("followingCount", d)`: plain arithmetic, no clamping. -/
def bumpFollowing (d : Int) (u : UserRec) : UserRec :=
  { u with followingCount := u.followingCount + d }

/-- Model of `target.increment("followersCount", d)`: plain arithmetic, no
clamping. -/
def bumpFollowers (d : Int) (u : UserRec) : UserRec :=
  { u with followersCount := u.followersCount + d }

/-- The `_Follow` query filter `equalTo(follower, me)` and
`equalTo(following, target)`. -/
def edgeMatches (a b : String) (e : FollowEdge) : Bool :=
  e.follower == a && e.following == b

/-- Model of `follow.destroy(...)`: remove the record found by `Query.first`, i.e.
the first matching edge. -/
def erasePFirst (p : FollowEdge → Bool) : List FollowEdge → List FollowEdge
  | [] => []
  | e :: rest => if p e then rest else e :: erasePFirst p rest

/-- The `followUser` cloud function (`src/unnamed/part_000` lines
105-132): reject missing ids and self-follow, resolve both `_User`
records, short-circuit when the edge already exists, otherwise create the
edge and increment `followingCount(me)` / `followersCount(target)` via
`saveAll`.  A missing argument is falsy like the empty string. -/
def followUser (st : Store) (myId targetId : String) : FollowResult × Store :=
  if myId == "" || targetId == "" then (.missingIds, st)
  else if myId == targetId then (.selfFollow, st)
  else
    match st.users.find? (fun u => u.auth0Id == myId),
          st.users.find? (fun u => u.auth0Id == targetId) with
    | some _, some _ =>
        if (st.edges.find? (edgeMatches myId targetId)).isSome then
          (.alreadyFollowing, st)
        else
          (.success,
           { st with
             edges := ⟨myId, targetId⟩ :: st.edges,
             users := updateUser (updateUser st.users myId (bumpFollowing 1))
               targetId (bumpFollowers 1) })
    | _, _ => (.userNotFound, st)

/-- The `unfollowUser` cloud function (`src/unnamed/part_000` lines
134-157): reject missing ids, resolve both `_User` records, throw
`"Not following"` when no edge exists, otherwise decrement both counters
(`increment(..., -1)`, unguarded arithmetic) and destroy the edge. -/
def unfollowUser (st : Store) (myId targetId : String) :
    FollowResult × Store :=
  if myId == "" || targetId == "" then (.missingIds, st)
  else
    match st.users.find? (fun u => u.auth0Id == myId),
          st.users.find? (fun u => u.auth0Id == targetId) with
    | some _, some _ =>
        if (st.edges.find? (edgeMatches myId targetId)).isSome then
          (.success,
           { st with
             edges := erasePFirst (edgeMatches myId targetId) st.edges,
             users := updateUser
               (updateUser st.users myId (bumpFollowing (-1)))
               targetId (bumpFollowers (-1)) })
        else (.notFollowing, st)
    | _, _ => (.userNotFound, st)

/-! ## Message Relay

The `sendMessage` socket handler of the FCM variant
(`src/index.ts` lines 66-131; same structure in `src/unnamed/part_008`
lines 114-201 and part_006): resolve recipient, resolve sender, persist,
live-deliver when the recipient is present, push-notify when the recipient
profile carries a token (clearing the token when the Notifier reports it
permanently invalid), and finally acknowledge the sender. -/

/-- The payload built after a successful save: the persisted record's
`objectId` and `createdAt` plus the request fields.  `createdAt` is the
store-assigned timestamp; the handler serializes it with the external
`Date.toISOString` (ISO-8601). -/
structure MsgPayload where
  objectId : String
  text : String
  senderId : String
  senderName : String
  receiverId : String
  createdAt : Nat
deriving Repr, DecidableEq

/-- Outcome of one Push Notifier (`admin.messaging().send`) call.
`tokenInvalid` models the
`messaging/registration-token-not-registered` error code; `otherError`
any other rejection (both are caught by the handler). -/
inductive NotifierResult where
  | ok
  | tokenInvalid
  | otherError
deriving Repr, DecidableEq

/-- Observable outputs of a handler run: socket events emitted to a
target socket id, and Push Notifier invocations. -/
inductive OutEvent where
  | sendError (target : String) (error : String)
  | newMessage (target : String) (payload : MsgPayload)
  | messageSent (target : String) (payload : MsgPayload)
  | notifierSend (token : String) (title : String) (body : String)
  | unfollowed (target : String) (fromId toId : String)
  | followUpdate (target : String) (fromId toId : String) (action : String)
deriving Repr, DecidableEq

/-- Does the event report a send failure to a client? -/
def isSendError : OutEvent → Bool
  | .sendError _ _ => true
  | _ => false

/-- Is the event a Push Notifier invocation? -/
def isNotifierSend : OutEvent → Bool
  | .notifierSend _ _ _ => true
  | _ => false

/-- JS `x || dflt` on an optional string field: a missing field and the
empty string are both falsy. -/
def jsOr (s : Option String) (dflt : String) : String :=
  match s with
  | some v => if v == "" then dflt else v
  | none => dflt

/-- The store-assigned `objectId` of the next saved record (Parse
generates a fresh non-empty alphanumeric id). -/
def genId (n : Nat) : String :=
  "msg" ++ toString n

/-- Model of `receiver.unset("fcmToken"); receiver.save(...)`: clear the token on
the first profile matching the auth0Id (the record `Query.first`
returned). -/
def clearFcmToken (l : List Profile) (id : String) : List Profile :=
  match l with
  | [] => []
  | p :: rest =>
      if p.auth0Id == id then { p with fcmToken := none } :: rest
      else p :: clearFcmToken rest id

/-- A `sendMessage` request body `{senderId, receiverId, text}`. -/
structure SendData where
  senderId : String
  receiverId : String
  text : String
deriving Repr, DecidableEq

/-- The `sendMessage` handler (`src/index.ts` lines 66-131).  `notifier`
is the external Push Notifier's behavior on this call; `online` the
Presence Directory; `senderSocket` the requesting connection.  Returns
the emitted events in program order together with the store after the
run. -/
def sendMessage (notifier : String → NotifierResult) (st : Store)
    (online : OnlineMap) (senderSocket : String) (d : SendData) :
    List OutEvent × Store :=
  match st.profiles.find? (fun p => p.auth0Id == d.receiverId) with
  | none => ([.sendError senderSocket "User not found"], st)
  | some receiver =>
      let senderProfile := st.profiles.find? (fun p => p.auth0Id == d.senderId)
      let senderName := jsOr (senderProfile.bind (fun p => p.username)) "User"
      let oid := genId st.nextId
      let msg : Message :=
        { objectId := oid, senderId := d.senderId, receiverId := d.receiverId,
          text := d.text, createdAt := st.now }
      let payload : MsgPayload :=
        { objectId := oid, text := d.text, senderId := d.senderId,
          senderName := senderName, receiverId := d.receiverId,
          createdAt := st.now }
      let liveEvents : List OutEvent :=
        match resolve online d.receiverId with
        | some sid => [.newMessage sid payload]
        | none => []
      let fcmEvents : List OutEvent :=
        match receiver.fcmToken with
        | some tok =>
            [.notifierSend tok
              (jsOr (senderProfile.bind (fun p => p.username)) "New Message")
              d.text]
        | none => []
      let profilesAfter : List Profile :=
        match receiver.fcmToken with
        | some tok =>
            match notifier tok with
            | .tokenInvalid => clearFcmToken st.profiles d.receiverId
            | _ => st.profiles
        | none => st.profiles
      (liveEvents ++ fcmEvents ++ [.messageSent senderSocket payload],
       { st with
         messages := st.messages ++ [msg],
         nextId := st.nextId + 1,
         profiles := profilesAfter })

/-- The socket `unfollowUser` handler (`src/index.ts` lines 588-613):
destroy the first matching `_Follow` edge if one exists (no error when it
does not), then emit `unfollowSuccess` + `followUpdate` to the follower's
presence socket and `followUpdate` to the target's, unconditionally.  This
variant touches no counters. -/
def unfollowUserHandler (st : Store) (online : OnlineMap)
    (fromId toId : String) : List OutEvent × Store :=
  let stAfter :=
    { st with edges := erasePFirst (edgeMatches fromId toId) st.edges }
  let fromEvents : List OutEvent :=
    match resolve online fromId with
    | some sid => [.unfollowed sid fromId toId,
                   .followUpdate sid fromId toId "unfollow"]
    | none => []
  let toEvents : List OutEvent :=
    match resolve online toId with
    | some sid => [.followUpdate sid fromId toId "unfollow"]
    | none => []
  (fromEvents ++ toEvents, stAfter)

/-! ## Social-graph helper lemmas -/

/-- Running `Query.first` on the updated list, same key: the found record is the
updated one. -/
theorem find?_updateUser_self (l : List UserRec) (id : String)
    (f : UserRec → UserRec) (hf : ∀ u, (f u).auth0Id = u.auth0Id) :
    (updateUser l id f).find? (fun u => u.auth0Id == id)
      = (l.find? (fun u => u.auth0Id == id)).map f := by
  induction l with
  | nil => simp [updateUser]
  | cons u rest ih =>
      simp only [updateUser]
      by_cases h : (u.auth0Id == id) = true
      · rw [if_pos h]
        simp [List.find?, hf u, h]
      · rw [if_neg h]
        simp only [List.find?, h]
        exact ih

/-- Running `Query.first` on the updated list, different key: unchanged. -/
theorem find?_updateUser_other (l : List UserRec) (id k : String)
    (f : UserRec → UserRec) (hf : ∀ u, (f u).auth0Id = u.auth0Id)
    (hne : k ≠ id) :
    (updateUser l id f).find? (fun u => u.auth0Id == k)
      = l.find? (fun u => u.auth0Id == k) := by
  induction l with
  | nil => simp [updateUser]
  | cons u rest ih =>
      simp only [updateUser]
      by_cases h : (u.auth0Id == id) = true
      · rw [if_pos h]
        have hu : u.auth0Id = id := by simpa using h
        have h1 : ((f u).auth0Id == k) = false := by
          rw [hf u, hu]
          exact beq_eq_false_iff_ne.mpr (Ne.symm hne)
        have h2 : (u.auth0Id == k) = false := by
          rw [hu]
          exact beq_eq_false_iff_ne.mpr (Ne.symm hne)
        simp [List.find?, h1, h2]
      · rw [if_neg h]
        by_cases h3 : (u.auth0Id == k) = true
        · simp [List.find?, h3]
        · simp only [List.find?, h3]
          exact ih

/-- When no edge matches, destroying the first match is a no-op. -/
theorem erasePFirst_of_find?_none (p : FollowEdge → Bool)
    (l : List FollowEdge) (h : l.find? p = none) : erasePFirst p l = l := by
  induction l with
  | nil => rfl
  | cons e rest ih =>
      by_cases he : p e = true
      · simp [List.find?, he] at h
      · simp only [List.find?, he] at h
        simp only [erasePFirst, if_neg he]
        rw [ih h]

/-! ## The counter invariant

`followingCount` / `followersCount` are denormalized edge counts.  The
code never clamps a decrement; instead `unfollowUser` only decrements when
the edge it is about to destroy exists.  We show this keeps both counters
equal to the corresponding edge counts — hence non-negative — along every
sequence of follow/unfollow operations from a consistent state. -/

/-- Number of edges out of `a` (what `followingCount(a)` denormalizes). -/
def countFrom (edges : List FollowEdge) (a : String) : Nat :=
  (edges.filter (fun e => e.follower == a)).length

/-- Number of edges into `b` (what `followersCount(b)` denormalizes). -/
def countTo (edges : List FollowEdge) (b : String) : Nat :=
  (edges.filter (fun e => e.following == b)).length

/-- The store is consistent: auth0Ids are unique and every `_User`'s
counters equal its edge counts. -/
def consistent (st : Store) : Prop :=
  (st.users.map (fun u => u.auth0Id)).Nodup ∧
  ∀ u ∈ st.users,
    u.followingCount = (countFrom st.edges u.auth0Id : Int) ∧
    u.followersCount = (countTo st.edges u.auth0Id : Int)

instance (st : Store) : Decidable (consistent st) := by
  unfold consistent
  infer_instance

/-- Both counters of every profile are non-negative. -/
def allCountersNonneg (st : Store) : Prop :=
  ∀ u ∈ st.users, 0 ≤ u.followingCount ∧ 0 ≤ u.followersCount

instance (st : Store) : Decidable (allCountersNonneg st) := by
  unfold allCountersNonneg
  infer_instance

/-- One social-graph request. -/
inductive GraphOp where
  | follow (a b : String)
  | unfollow (a b : String)
deriving Repr, DecidableEq

/-- The store after servicing one request (whatever its outcome). -/
def runOp (st : Store) : GraphOp → Store
  | .follow a b => (followUser st a b).2
  | .unfollow a b => (unfollowUser st a b).2

/-- The store after servicing a sequence of requests. -/
def runOps (st : Store) (ops : List GraphOp) : Store :=
  ops.foldl runOp st

theorem countFrom_cons (e : FollowEdge) (edges : List FollowEdge)
    (x : String) :
    countFrom (e :: edges) x
      = countFrom edges x + (if e.follower == x then 1 else 0) := by
  by_cases h : (e.follower == x) = true <;>
    simp [countFrom, List.filter_cons, h]

theorem countTo_cons (e : FollowEdge) (edges : List FollowEdge)
    (x : String) :
    countTo (e :: edges) x
      = countTo edges x + (if e.following == x then 1 else 0) := by
  by_cases h : (e.following == x) = true <;>
    simp [countTo, List.filter_cons, h]

theorem countFrom_erasePFirst (p : FollowEdge → Bool)
    (edges : List FollowEdge) (fe : FollowEdge)
    (hfind : edges.find? p = some fe) (x : String) :
    countFrom (erasePFirst p edges) x
        + (if fe.follower == x then 1 else 0)
      = countFrom edges x := by
  induction edges with
  | nil => simp [List.find?] at hfind
  | cons e rest ih =>
      by_cases he : p e = true
      · have hfe : fe = e := by
          simp [List.find?, he] at hfind
          exact hfind.symm
        subst hfe
        simp only [erasePFirst, if_pos he, countFrom_cons]
      · simp only [List.find?, he] at hfind
        simp only [erasePFirst, if_neg he, countFrom_cons]
        have := ih hfind
        omega

theorem countTo_erasePFirst (p : FollowEdge → Bool)
    (edges : List FollowEdge) (fe : FollowEdge)
    (hfind : edges.find? p = some fe) (x : String) :
    countTo (erasePFirst p edges) x
        + (if fe.following == x then 1 else 0)
      = countTo edges x := by
  induction edges with
  | nil => simp [List.find?] at hfind
  | cons e rest ih =>
      by_cases he : p e = true
      · have hfe : fe = e := by
          simp [List.find?, he] at hfind
          exact hfind.symm
        subst hfe
        simp only [erasePFirst, if_pos he, countTo_cons]
      · simp only [List.find?, he] at hfind
        simp only [erasePFirst, if_neg he, countTo_cons]
        have := ih hfind
        omega

/-- Pointwise keyed update leaves a list untouched when no element
matches the key. -/
theorem map_updateIte_id (l : List UserRec) (id : String)
    (f : UserRec → UserRec)
    (h : ∀ u ∈ l, (u.auth0Id == id) = false) :
    l.map (fun u => if u.auth0Id == id then f u else u) = l := by
  induction l with
  | nil => rfl
  | cons u rest ih =>
      have h0 := h u (List.mem_cons_self u rest)
      simp only [List.map_cons]
      rw [if_neg (by simp [h0]),
        ih (fun v hv => h v (List.mem_cons_of_mem _ hv))]

/-- Under unique keys the first-match update is a pointwise map. -/
theorem updateUser_eq_map (l : List UserRec) (id : String)
    (f : UserRec → UserRec)
    (hl : (l.map (fun u => u.auth0Id)).Nodup) :
    updateUser l id f
      = l.map (fun u => if u.auth0Id == id then f u else u) := by
  induction l with
  | nil => rfl
  | cons u rest ih =>
      simp only [List.map_cons, List.nodup_cons] at hl
      simp only [updateUser, List.map_cons]
      by_cases h : (u.auth0Id == id) = true
      · have hid : u.auth0Id = id := by simpa using h
        have hrest : ∀ v ∈ rest, (v.auth0Id == id) = false := by
          intro v hv
          apply beq_eq_false_iff_ne.mpr
          intro hEq
          have hmem : v.auth0Id ∈ rest.map (fun u => u.auth0Id) :=
            List.mem_map.mpr ⟨v, hv, rfl⟩
          rw [hEq, ← hid] at hmem
          exact hl.1 hmem
        rw [if_pos h, if_pos h, map_updateIte_id rest id f hrest]
      · rw [if_neg h, if_neg h, ih hl.2]

/-- A keyed pointwise update with key-preserving payload does not change
the key column. -/
theorem keys_map_update (l : List UserRec) (id : String)
    (f : UserRec → UserRec) (hf : ∀ u, (f u).auth0Id = u.auth0Id) :
    ((l.map (fun u => if u.auth0Id == id then f u else u)).map
        (fun u => u.auth0Id))
      = l.map (fun u => u.auth0Id) := by
  rw [List.map_map]
  apply List.map_congr_left
  intro u _
  by_cases h : (u.auth0Id == id) = true <;> simp [Function.comp, h, hf u]

/-- A successful follow preserves consistency: the new edge is counted by
exactly the two counters that were incremented. -/
theorem consistent_followState (st : Store) (a b : String) (hab : a ≠ b)
    (h : consistent st) :
    consistent
      { st with
        edges := ⟨a, b⟩ :: st.edges,
        users := updateUser (updateUser st.users a (bumpFollowing 1)) b
          (bumpFollowers 1) } := by
  obtain ⟨hnd, hcons⟩ := h
  have hfa : ∀ u, (bumpFollowing (1 : Int) u).auth0Id = u.auth0Id :=
    fun _ => rfl
  have hfb : ∀ u, (bumpFollowers (1 : Int) u).auth0Id = u.auth0Id :=
    fun _ => rfl
  rw [updateUser_eq_map st.users a _ hnd]
  have hk1 := keys_map_update st.users a (bumpFollowing 1) hfa
  rw [updateUser_eq_map _ b _ (by rw [hk1]; exact hnd)]
  refine ⟨?_, ?_⟩
  · rw [keys_map_update _ b _ hfb, hk1]
    exact hnd
  · intro u hu
    rcases List.mem_map.mp hu with ⟨u1, hu1, rfl⟩
    rcases List.mem_map.mp hu1 with ⟨u0, hu0, rfl⟩
    obtain ⟨h1, h2⟩ := hcons u0 hu0
    have hba : (b == a) = false := beq_eq_false_iff_ne.mpr (Ne.symm hab)
    have hab2 : (a == b) = false := beq_eq_false_iff_ne.mpr hab
    by_cases ha0 : (u0.auth0Id == a) = true
    · have haEq : u0.auth0Id = a := by simpa using ha0
      have hb0 : (u0.auth0Id == b) = false := by rw [haEq]; exact hab2
      simp [ha0, hb0, bumpFollowing, countFrom_cons, countTo_cons, haEq, hba,
        hab, Ne.symm hab, h1, h2]
    · have haP : u0.auth0Id ≠ a := by simpa using ha0
      by_cases hb0 : (u0.auth0Id == b) = true
      · have hbEq : u0.auth0Id = b := by simpa using hb0
        simp [ha0, hb0, bumpFollowers, countFrom_cons, countTo_cons, hbEq,
          hab2, hab, Ne.symm hab, haP, Ne.symm haP, h1, h2]
      · have hbP : u0.auth0Id ≠ b := by simpa using hb0
        simp [ha0, hb0, countFrom_cons, countTo_cons, h1, h2, haP, hbP,
          Ne.symm haP, Ne.symm hbP]

/-- A successful unfollow preserves consistency: the destroyed edge was
counted by exactly the two counters that were decremented — this guard
(not clamping) is what keeps the counters non-negative. -/
theorem consistent_unfollowState (st : Store) (a b : String)
    (fe : FollowEdge) (hfind : st.edges.find? (edgeMatches a b) = some fe)
    (h : consistent st) :
    consistent
      { st with
        edges := erasePFirst (edgeMatches a b) st.edges,
        users := updateUser (updateUser st.users a (bumpFollowing (-1))) b
          (bumpFollowers (-1)) } := by
  obtain ⟨hnd, hcons⟩ := h
  have hfa : ∀ u, (bumpFollowing (-1 : Int) u).auth0Id = u.auth0Id :=
    fun _ => rfl
  have hfb : ∀ u, (bumpFollowers (-1 : Int) u).auth0Id = u.auth0Id :=
    fun _ => rfl
  have hedge : edgeMatches a b fe = true := List.find?_some hfind
  have hsplit : fe.follower = a ∧ fe.following = b := by
    simpa [edgeMatches] using hedge
  rw [updateUser_eq_map st.users a _ hnd]
  have hk1 := keys_map_update st.users a (bumpFollowing (-1)) hfa
  rw [updateUser_eq_map _ b _ (by rw [hk1]; exact hnd)]
  refine ⟨?_, ?_⟩
  · rw [keys_map_update _ b _ hfb, hk1]
    exact hnd
  · intro u hu
    rcases List.mem_map.mp hu with ⟨u1, hu1, rfl⟩
    rcases List.mem_map.mp hu1 with ⟨u0, hu0, rfl⟩
    obtain ⟨h1, h2⟩ := hcons u0 hu0
    have hcf := countFrom_erasePFirst (edgeMatches a b) st.edges fe hfind
      u0.auth0Id
    have hct := countTo_erasePFirst (edgeMatches a b) st.edges fe hfind
      u0.auth0Id
    rw [hsplit.1] at hcf
    rw [hsplit.2] at hct
    by_cases ha0 : (u0.auth0Id == a) = true
    · have haEq : u0.auth0Id = a := by simpa using ha0
      by_cases hb0 : (u0.auth0Id == b) = true
      · have hbEq : u0.auth0Id = b := by simpa using hb0
        have hEqab : a = b := haEq.symm.trans hbEq
        simp [ha0, hb0, bumpFollowing, bumpFollowers, haEq, hbEq, hEqab,
          h1, h2] at hcf hct ⊢
        omega
      · have hbP : u0.auth0Id ≠ b := by simpa using hb0
        have hab3 : a ≠ b := by rw [← haEq]; exact hbP
        simp [ha0, hb0, bumpFollowing, haEq, hbP, Ne.symm hbP, hab3,
          Ne.symm hab3, h1, h2] at hcf hct ⊢
        omega
    · have haP : u0.auth0Id ≠ a := by simpa using ha0
      by_cases hb0 : (u0.auth0Id == b) = true
      · have hbEq : u0.auth0Id = b := by simpa using hb0
        have hab3 : b ≠ a := by rw [← hbEq]; exact haP
        simp [ha0, hb0, bumpFollowers, hbEq, haP, Ne.symm haP, hab3,
          Ne.symm hab3, h1, h2] at hcf hct ⊢
        omega
      · have hbP : u0.auth0Id ≠ b := by simpa using hb0
        simp [ha0, hb0, haP, hbP, Ne.symm haP, Ne.symm hbP, h1, h2]
          at hcf hct ⊢
        omega

/-- Every `followUser` call — whatever its outcome — preserves
consistency. -/
theorem consistent_followUser (st : Store) (a b : String)
    (h : consistent st) : consistent (followUser st a b).2 := by
  by_cases h1 : (a == "" || b == "") = true
  · simpa [followUser, h1] using h
  · rw [Bool.not_eq_true] at h1
    by_cases h2 : (a == b) = true
    · simpa [followUser, h1, h2] using h
    · rw [Bool.not_eq_true] at h2
      rcases hme : st.users.find? (fun u => u.auth0Id == a) with _ | me
      · simpa [followUser, h1, h2, hme] using h
      · rcases htg : st.users.find? (fun u => u.auth0Id == b) with _ | tg
        · simpa [followUser, h1, h2, hme, htg] using h
        · by_cases h3 : (st.edges.find? (edgeMatches a b)).isSome = true
          · simpa [followUser, h1, h2, hme, htg, h3] using h
          · rw [Bool.not_eq_true] at h3
            have hab : a ≠ b := by simpa using h2
            have := consistent_followState st a b hab h
            simpa [followUser, h1, h2, hme, htg, h3] using this

/-- Every `unfollowUser` call — whatever its outcome — preserves
consistency. -/
theorem consistent_unfollowUser (st : Store) (a b : String)
    (h : consistent st) : consistent (unfollowUser st a b).2 := by
  by_cases h1 : (a == "" || b == "") = true
  · simpa [unfollowUser, h1] using h
  · rw [Bool.not_eq_true] at h1
    rcases hme : st.users.find? (fun u => u.auth0Id == a) with _ | me
    · simpa [unfollowUser, h1, hme] using h
    · rcases htg : st.users.find? (fun u => u.auth0Id == b) with _ | tg
      · simpa [unfollowUser, h1, hme, htg] using h
      · by_cases h3 : (st.edges.find? (edgeMatches a b)).isSome = true
        · obtain ⟨fe, hfe⟩ := Option.isSome_iff_exists.mp h3
          have := consistent_unfollowState st a b fe hfe h
          simpa [unfollowUser, h1, hme, htg, h3] using this
        · rw [Bool.not_eq_true] at h3
          simpa [unfollowUser, h1, hme, htg, h3] using h

/-- Servicing any request preserves consistency. -/
theorem consistent_runOp (st : Store) (op : GraphOp) (h : consistent st) :
    consistent (runOp st op) := by
  cases op with
  | follow a b => exact consistent_followUser st a b h
  | unfollow a b => exact consistent_unfollowUser st a b h

/-- Servicing any request sequence preserves consistency. -/
theorem consistent_runOps (st : Store) (ops : List GraphOp)
    (h : consistent st) : consistent (runOps st ops) := by
  induction ops generalizing st with
  | nil => exact h
  | cons op rest ih => exact ih (runOp st op) (consistent_runOp st op h)

/-- Counters of a consistent store are non-negative (they are counts). -/
theorem nonneg_of_consistent (st : Store) (h : consistent st) :
    allCountersNonneg st := by
  intro u hu
  obtain ⟨h1, h2⟩ := h.2 u hu
  rw [h1, h2]
  exact ⟨Int.natCast_nonneg _, Int.natCast_nonneg _⟩

/-! ## Claim theorems: social graph -/

/-- C1 (amended): along every sequence of follow/unfollow requests from a
consistent store (counters equal to edge counts, unique auth0Ids — in
particular any fresh store with zero counters and no edges), both counters
of every profile stay non-negative at every observable point (the final
store of every request prefix).  The code achieves this by decrementing
only when the edge about to be destroyed exists; the decrement itself is
unguarded arithmetic and does not clamp. -/
theorem counters_stay_nonneg (st : Store) (h : consistent st)
    (ops : List GraphOp) : allCountersNonneg (runOps st ops) :=
  nonneg_of_consistent (runOps st ops) (consistent_runOps st ops h)

/-- C1 witness: a fresh two-user store stays non-negative across a
follow, an unfollow and a redundant unfollow. -/
theorem counters_stay_nonneg_witness :
    consistent
      { users := [⟨"alice", 0, 0⟩, ⟨"bob", 0, 0⟩], profiles := [],
        messages := [], edges := [], nextId := 0, now := 0 } ∧
    allCountersNonneg (runOps
      { users := [⟨"alice", 0, 0⟩, ⟨"bob", 0, 0⟩], profiles := [],
        messages := [], edges := [], nextId := 0, now := 0 }
      [.follow "alice" "bob", .unfollow "alice" "bob",
       .unfollow "alice" "bob"]) :=
  ⟨by decide, counters_stay_nonneg _ (by decide) _⟩

/-- C1 counterexample: the decrement does NOT clamp at zero.  On a store
holding an edge alice→bob while alice's `followingCount` is (stale at) 0,
`unfollowUser` drives the counter to −1 — an observable negative value —
so "any decrement clamps to zero" is false of the code. -/
theorem unfollow_decrement_no_clamp :
    ((unfollowUser
        { users := [⟨"alice", 0, 0⟩, ⟨"bob", 0, 0⟩], profiles := [],
          messages := [], edges := [⟨"alice", "bob"⟩], nextId := 0,
          now := 0 }
        "alice" "bob").2.users.find?
      (fun u => u.auth0Id == "alice")).map (fun u => u.followingCount)
      = some (-1) := by decide

/-- C3: when a follow succeeds, an immediately repeated `followUser` with
the same pair short-circuits at the idempotent check, reports
`Already following`, and returns the store unchanged — same edge list,
same counters on both profiles. -/
theorem followUser_idempotent_check (st : Store) (a b : String)
    (me tg : UserRec) (ha : a ≠ "") (hb : b ≠ "") (hab : a ≠ b)
    (hme : st.users.find? (fun u => u.auth0Id == a) = some me)
    (htg : st.users.find? (fun u => u.auth0Id == b) = some tg)
    (hedge : st.edges.find? (edgeMatches a b) = none) :
    (followUser st a b).1 = .success ∧
    followUser (followUser st a b).2 a b
      = (.alreadyFollowing, (followUser st a b).2) := by
  have hcond1 : (a == "" || b == "") = false := by simp [ha, hb]
  have hcond2 : (a == b) = false := by simp [hab]
  have hrun : followUser st a b
      = (.success,
         { st with
           edges := ⟨a, b⟩ :: st.edges,
           users := updateUser (updateUser st.users a (bumpFollowing 1)) b
             (bumpFollowers 1) }) := by
    simp [followUser, hcond1, hcond2, hme, htg, hedge]
  rw [hrun]
  refine ⟨rfl, ?_⟩
  have hfa : ∀ u, (bumpFollowing (1 : Int) u).auth0Id = u.auth0Id :=
    fun _ => rfl
  have hfb : ∀ u, (bumpFollowers (1 : Int) u).auth0Id = u.auth0Id :=
    fun _ => rfl
  have hme2 : (updateUser (updateUser st.users a (bumpFollowing 1)) b
      (bumpFollowers 1)).find? (fun u => u.auth0Id == a)
      = some (bumpFollowing 1 me) := by
    rw [find?_updateUser_other _ b a _ hfb hab,
      find?_updateUser_self _ a _ hfa, hme]
    rfl
  have htg2 : (updateUser (updateUser st.users a (bumpFollowing 1)) b
      (bumpFollowers 1)).find? (fun u => u.auth0Id == b)
      = some (bumpFollowers 1 tg) := by
    rw [find?_updateUser_self _ b _ hfb,
      find?_updateUser_other _ a b _ hfa (Ne.symm hab), htg]
    rfl
  simp [followUser, hcond1, hcond2, hme2, htg2, List.find?, edgeMatches]

/-- C3 witness: concrete two-user store. -/
theorem followUser_idempotent_check_witness :
    (followUser
        { users := [⟨"alice", 0, 0⟩, ⟨"bob", 0, 0⟩], profiles := [],
          messages := [], edges := [], nextId := 0, now := 0 }
        "alice" "bob").1 = .success ∧
    followUser
        (followUser
          { users := [⟨"alice", 0, 0⟩, ⟨"bob", 0, 0⟩], profiles := [],
            messages := [], edges := [], nextId := 0, now := 0 }
          "alice" "bob").2 "alice" "bob"
      = (.alreadyFollowing,
         (followUser
            { users := [⟨"alice", 0, 0⟩, ⟨"bob", 0, 0⟩], profiles := [],
              messages := [], edges := [], nextId := 0, now := 0 }
            "alice" "bob").2) :=
  followUser_idempotent_check _ "alice" "bob" ⟨"alice", 0, 0⟩ ⟨"bob", 0, 0⟩
    (by decide) (by decide) (by decide) (by decide) (by decide) (by decide)

/-- C8 (amended): when no edge A→B exists beforehand (so the follow
actually succeeds), `follow(A,B)` then `unfollow(A,B)` restores
`followingCount(A)` and `followersCount(B)` exactly to their pre-follow
values. -/
theorem follow_unfollow_roundtrip (st : Store) (a b : String)
    (me tg : UserRec) (ha : a ≠ "") (hb : b ≠ "") (hab : a ≠ b)
    (hme : st.users.find? (fun u => u.auth0Id == a) = some me)
    (htg : st.users.find? (fun u => u.auth0Id == b) = some tg)
    (hedge : st.edges.find? (edgeMatches a b) = none) :
    ((unfollowUser (followUser st a b).2 a b).2.users.find?
        (fun u => u.auth0Id == a)).map (fun u => u.followingCount)
      = some me.followingCount ∧
    ((unfollowUser (followUser st a b).2 a b).2.users.find?
        (fun u => u.auth0Id == b)).map (fun u => u.followersCount)
      = some tg.followersCount := by
  have hcond1 : (a == "" || b == "") = false := by simp [ha, hb]
  have hcond2 : (a == b) = false := by simp [hab]
  have hfa1 : ∀ u, (bumpFollowing (1 : Int) u).auth0Id = u.auth0Id :=
    fun _ => rfl
  have hfb1 : ∀ u, (bumpFollowers (1 : Int) u).auth0Id = u.auth0Id :=
    fun _ => rfl
  have hfa2 : ∀ u, (bumpFollowing (-1 : Int) u).auth0Id = u.auth0Id :=
    fun _ => rfl
  have hfb2 : ∀ u, (bumpFollowers (-1 : Int) u).auth0Id = u.auth0Id :=
    fun _ => rfl
  have hrun : followUser st a b
      = (.success,
         { st with
           edges := ⟨a, b⟩ :: st.edges,
           users := updateUser (updateUser st.users a (bumpFollowing 1)) b
             (bumpFollowers 1) }) := by
    simp [followUser, hcond1, hcond2, hme, htg, hedge]
  have hme2 : (updateUser (updateUser st.users a (bumpFollowing 1)) b
      (bumpFollowers 1)).find? (fun u => u.auth0Id == a)
      = some (bumpFollowing 1 me) := by
    rw [find?_updateUser_other _ b a _ hfb1 hab,
      find?_updateUser_self _ a _ hfa1, hme]
    rfl
  have htg2 : (updateUser (updateUser st.users a (bumpFollowing 1)) b
      (bumpFollowers 1)).find? (fun u => u.auth0Id == b)
      = some (bumpFollowers 1 tg) := by
    rw [find?_updateUser_self _ b _ hfb1,
      find?_updateUser_other _ a b _ hfa1 (Ne.symm hab), htg]
    rfl
  have hrun2 : unfollowUser (followUser st a b).2 a b
      = (.success,
         { st with
           edges := st.edges,
           users := updateUser
             (updateUser
               (updateUser (updateUser st.users a (bumpFollowing 1)) b
                 (bumpFollowers 1))
               a (bumpFollowing (-1)))
             b (bumpFollowers (-1)) }) := by
    rw [hrun]
    simp [unfollowUser, hcond1, hme2, htg2, List.find?, edgeMatches,
      erasePFirst]
  rw [hrun2]
  have hme3 : (updateUser
      (updateUser
        (updateUser (updateUser st.users a (bumpFollowing 1)) b
          (bumpFollowers 1))
        a (bumpFollowing (-1)))
      b (bumpFollowers (-1))).find? (fun u => u.auth0Id == a)
      = some (bumpFollowing (-1) (bumpFollowing 1 me)) := by
    rw [find?_updateUser_other _ b a _ hfb2 hab,
      find?_updateUser_self _ a _ hfa2, hme2]
    rfl
  have htg3 : (updateUser
      (updateUser
        (updateUser (updateUser st.users a (bumpFollowing 1)) b
          (bumpFollowers 1))
        a (bumpFollowing (-1)))
      b (bumpFollowers (-1))).find? (fun u => u.auth0Id == b)
      = some (bumpFollowers (-1) (bumpFollowers 1 tg)) := by
    rw [find?_updateUser_self _ b _ hfb2,
      find?_updateUser_other _ a b _ hfa2 (Ne.symm hab), htg2]
    rfl
  rw [hme3, htg3]
  refine ⟨?_, ?_⟩ <;> simp [bumpFollowing, bumpFollowers]

/-- C8 witness: concrete two-user store with no prior edge. -/
theorem follow_unfollow_roundtrip_witness :
    ((unfollowUser
        (followUser
          { users := [⟨"alice", 3, 4⟩, ⟨"bob", 5, 6⟩], profiles := [],
            messages := [], edges := [], nextId := 0, now := 0 }
          "alice" "bob").2 "alice" "bob").2.users.find?
        (fun u => u.auth0Id == "alice")).map (fun u => u.followingCount)
      = some (3 : Int) ∧
    ((unfollowUser
        (followUser
          { users := [⟨"alice", 3, 4⟩, ⟨"bob", 5, 6⟩], profiles := [],
            messages := [], edges := [], nextId := 0, now := 0 }
          "alice" "bob").2 "alice" "bob").2.users.find?
        (fun u => u.auth0Id == "bob")).map (fun u => u.followersCount)
      = some (6 : Int) :=
  follow_unfollow_roundtrip _ "alice" "bob" ⟨"alice", 3, 4⟩ ⟨"bob", 5, 6⟩
    (by decide) (by decide) (by decide) (by decide) (by decide) (by decide)

/-- C8 counterexample: with a pre-existing edge alice→bob the claim fails
as stated — `follow` short-circuits with `Already following` (no
mutation), but `unfollow` then destroys the pre-existing edge and
decrements, so `followingCount(alice)` ends at 0, not at its pre-follow
value 1. -/
theorem follow_unfollow_not_roundtrip :
    ((unfollowUser
        (followUser
          { users := [⟨"alice", 1, 0⟩, ⟨"bob", 0, 1⟩], profiles := [],
            messages := [], edges := [⟨"alice", "bob"⟩], nextId := 0,
            now := 0 }
          "alice" "bob").2 "alice" "bob").2.users.find?
        (fun u => u.auth0Id == "alice")).map (fun u => u.followingCount)
      = some (0 : Int) ∧
    (followUser
        { users := [⟨"alice", 1, 0⟩, ⟨"bob", 0, 1⟩], profiles := [],
          messages := [], edges := [⟨"alice", "bob"⟩], nextId := 0,
          now := 0 }
        "alice" "bob").1 = .alreadyFollowing := by decide

/-- C4 (amended): on an unfollow request with no matching edge, the
cloud-function variant reports `Not following` and leaves the store
untouched, and the socket-handler variant performs no destruction (store
unchanged) — but the socket handler reports `unfollowSuccess`, not a
`NotFollowing` outcome. -/
theorem unfollow_absent_edge_no_mutation (st : Store) (online : OnlineMap)
    (a b : String) (me tg : UserRec) (ha : a ≠ "") (hb : b ≠ "")
    (hme : st.users.find? (fun u => u.auth0Id == a) = some me)
    (htg : st.users.find? (fun u => u.auth0Id == b) = some tg)
    (hedge : st.edges.find? (edgeMatches a b) = none) :
    unfollowUser st a b = (.notFollowing, st) ∧
    (unfollowUserHandler st online a b).2 = st := by
  have hcond1 : (a == "" || b == "") = false := by simp [ha, hb]
  constructor
  · simp [unfollowUser, hcond1, hme, htg, hedge]
  · simp [unfollowUserHandler, erasePFirst_of_find?_none _ _ hedge]

/-- C4 witness: concrete store with both users and no edge. -/
theorem unfollow_absent_edge_no_mutation_witness :
    unfollowUser
        { users := [⟨"alice", 0, 0⟩, ⟨"bob", 0, 0⟩], profiles := [],
          messages := [], edges := [], nextId := 0, now := 0 }
        "alice" "bob"
      = (.notFollowing,
         { users := [⟨"alice", 0, 0⟩, ⟨"bob", 0, 0⟩], profiles := [],
           messages := [], edges := [], nextId := 0, now := 0 }) ∧
    (unfollowUserHandler
        { users := [⟨"alice", 0, 0⟩, ⟨"bob", 0, 0⟩], profiles := [],
          messages := [], edges := [], nextId := 0, now := 0 }
        [] "alice" "bob").2
      = { users := [⟨"alice", 0, 0⟩, ⟨"bob", 0, 0⟩], profiles := [],
          messages := [], edges := [], nextId := 0, now := 0 } :=
  unfollow_absent_edge_no_mutation _ [] "alice" "bob" ⟨"alice", 0, 0⟩
    ⟨"bob", 0, 0⟩ (by decide) (by decide) (by decide) (by decide) (by decide)

/-- C4 counterexample: the socket `unfollowUser` handler, asked to
unfollow when no edge exists, still emits `unfollowSuccess` (and
`followUpdate`) to the online requester — it never reports a
`NotFollowing` outcome, contradicting the claim as stated. -/
theorem unfollow_absent_edge_reports_ok :
    ({ users := [], profiles := [], messages := [], edges := [],
       nextId := 0, now := 0 } : Store).edges.find?
        (edgeMatches "alice" "bob") = none ∧
    (unfollowUserHandler
        { users := [], profiles := [], messages := [], edges := [],
          nextId := 0, now := 0 }
        [("alice", "s1")] "alice" "bob").1
      = [.unfollowed "s1" "alice" "bob",
         .followUpdate "s1" "alice" "bob" "unfollow"] := by decide

/-! ## Message-relay lemmas and claim theorems -/

/-- Store-assigned object ids are never empty. -/
theorem genId_ne_empty (n : Nat) : genId n ≠ "" := by
  intro hEq
  have h1 : (genId n).length = 0 := by rw [hEq]; rfl
  rw [genId, String.length_append] at h1
  have h2 : "msg".length = 3 := rfl
  omega

/-- Clearing the token rewrites exactly the found profile. -/
theorem find?_clearFcmToken (l : List Profile) (id : String) (r : Profile)
    (h : l.find? (fun p => p.auth0Id == id) = some r) :
    (clearFcmToken l id).find? (fun p => p.auth0Id == id)
      = some { r with fcmToken := none } := by
  induction l with
  | nil => simp [List.find?] at h
  | cons p rest ih =>
      by_cases hp : (p.auth0Id == id) = true
      · have hr : p = r := by simpa [List.find?, hp] using h
        subst hr
        simp [clearFcmToken, List.find?, hp]
      · simp only [List.find?, hp] at h
        simp only [clearFcmToken, if_neg hp, List.find?, hp]
        exact ih h

/-- C2: a `sendMessage` whose `receiverId` matches no profile emits
exactly one event — `sendError "User not found"` to the sender's own
socket — and leaves the store (in particular the `Message` table)
completely unchanged; the recipient gets nothing. -/
theorem sendMessage_unknown_recipient (notifier : String → NotifierResult)
    (st : Store) (online : OnlineMap) (senderSocket : String) (d : SendData)
    (h : st.profiles.find? (fun p => p.auth0Id == d.receiverId) = none) :
    sendMessage notifier st online senderSocket d
      = ([.sendError senderSocket "User not found"], st) := by
  simp [sendMessage, h]

/-- C2 witness: concrete store with no profile for the receiver. -/
theorem sendMessage_unknown_recipient_witness :
    ({ users := [], profiles := [⟨"alice", some "Alice", none, none⟩],
       messages := [], edges := [], nextId := 0, now := 0 } :
        Store).profiles.find?
      (fun p => p.auth0Id == (⟨"alice", "bob", "hi"⟩ : SendData).receiverId)
      = none ∧
    sendMessage (fun _ => .ok)
        { users := [], profiles := [⟨"alice", some "Alice", none, none⟩],
          messages := [], edges := [], nextId := 0, now := 0 }
        [] "s1" ⟨"alice", "bob", "hi"⟩
      = ([.sendError "s1" "User not found"],
         { users := [], profiles := [⟨"alice", some "Alice", none, none⟩],
           messages := [], edges := [], nextId := 0, now := 0 }) :=
  ⟨by decide,
   sendMessage_unknown_recipient (fun _ => .ok) _ [] "s1"
     ⟨"alice", "bob", "hi"⟩ (by decide)⟩

/-- C6: whenever the recipient resolves (so the persist step runs), the
last emitted event is always a `messageSent` acknowledgment to the
sender's own socket, whatever the Presence Directory and whatever the
Notifier does.  Its payload carries the persisted record's non-empty
`objectId` and the store-assigned `createdAt` timestamp (serialized by the
external `Date.toISOString`): a `Message` with exactly those fields is in
the store after the call. -/
theorem sendMessage_acks_sender (notifier : String → NotifierResult)
    (st : Store) (online : OnlineMap) (senderSocket : String) (d : SendData)
    (receiver : Profile)
    (h : st.profiles.find? (fun p => p.auth0Id == d.receiverId)
      = some receiver) :
    ∃ p : MsgPayload,
      (sendMessage notifier st online senderSocket d).1.getLast?
        = some (.messageSent senderSocket p) ∧
      p.objectId ≠ "" ∧
      ({ objectId := p.objectId, senderId := d.senderId,
         receiverId := d.receiverId, text := d.text,
         createdAt := p.createdAt } : Message)
        ∈ (sendMessage notifier st online senderSocket d).2.messages := by
  refine ⟨{ objectId := genId st.nextId, text := d.text,
            senderId := d.senderId,
            senderName := jsOr
              ((st.profiles.find? (fun q => q.auth0Id == d.senderId)).bind
                (fun q => q.username)) "User",
            receiverId := d.receiverId, createdAt := st.now }, ?_, ?_, ?_⟩
  · simp only [sendMessage, h]
    rw [List.getLast?_concat]
  · exact genId_ne_empty st.nextId
  · simp [sendMessage, h]

/-- C6 witness: concrete store, recipient offline with a valid token. -/
theorem sendMessage_acks_sender_witness :
    ({ users := [],
       profiles := [⟨"bob", some "Bob", none, some "tok1"⟩],
       messages := [], edges := [], nextId := 7, now := 123 } :
        Store).profiles.find?
      (fun p => p.auth0Id == (⟨"alice", "bob", "hi"⟩ : SendData).receiverId)
      = some ⟨"bob", some "Bob", none, some "tok1"⟩ ∧
    ∃ p : MsgPayload,
      (sendMessage (fun _ => .ok)
          { users := [],
            profiles := [⟨"bob", some "Bob", none, some "tok1"⟩],
            messages := [], edges := [], nextId := 7, now := 123 }
          [] "s1" ⟨"alice", "bob", "hi"⟩).1.getLast?
        = some (.messageSent "s1" p) ∧
      p.objectId ≠ "" ∧
      ({ objectId := p.objectId, senderId := "alice", receiverId := "bob",
         text := "hi", createdAt := p.createdAt } : Message)
        ∈ (sendMessage (fun _ => .ok)
            { users := [],
              profiles := [⟨"bob", some "Bob", none, some "tok1"⟩],
              messages := [], edges := [], nextId := 7, now := 123 }
            [] "s1" ⟨"alice", "bob", "hi"⟩).2.messages :=
  ⟨by decide,
   sendMessage_acks_sender (fun _ => .ok) _ [] "s1" ⟨"alice", "bob", "hi"⟩
     ⟨"bob", some "Bob", none, some "tok1"⟩ (by decide)⟩

/-- C7: when the Notifier reports the recipient's token permanently
invalid during a send, the token field on the recipient's profile is
cleared; no error event is emitted to any client for it; and a subsequent
send to the same recipient performs no Notifier call at all. -/
theorem invalid_token_selfheal (notifier notifier2 : String → NotifierResult)
    (st : Store) (online online2 : OnlineMap) (sock sock2 : String)
    (d d2 : SendData) (receiver : Profile) (tok : String)
    (h : st.profiles.find? (fun p => p.auth0Id == d.receiverId)
      = some receiver)
    (htok : receiver.fcmToken = some tok)
    (hinv : notifier tok = .tokenInvalid)
    (hsame : d2.receiverId = d.receiverId) :
    ((sendMessage notifier st online sock d).2.profiles.find?
        (fun p => p.auth0Id == d.receiverId)
      = some { receiver with fcmToken := none }) ∧
    (sendMessage notifier st online sock d).1.any isSendError = false ∧
    (sendMessage notifier2 (sendMessage notifier st online sock d).2 online2
        sock2 d2).1.any isNotifierSend = false := by
  have hprof : (sendMessage notifier st online sock d).2.profiles
      = clearFcmToken st.profiles d.receiverId := by
    simp [sendMessage, h, htok, hinv]
  have hfind2 := find?_clearFcmToken st.profiles d.receiverId receiver h
  refine ⟨by rw [hprof]; exact hfind2, ?_, ?_⟩
  · rcases hres : resolve online d.receiverId with _ | sid <;>
      simp [sendMessage, h, htok, hres, isSendError, List.any_append]
  · have hfind2b : (sendMessage notifier st online sock d).2.profiles.find?
        (fun p => p.auth0Id == d2.receiverId)
        = some { receiver with fcmToken := none } := by
      rw [hsame, hprof]
      exact hfind2
    set st1 := (sendMessage notifier st online sock d).2 with hst1
    rcases hres2 : resolve online2 d2.receiverId with _ | sid <;>
      simp [sendMessage, hfind2b, hres2, isNotifierSend, List.any_append]

/-- C7 witness: concrete store; an invalid-token send followed by a
second send to the same recipient. -/
theorem invalid_token_selfheal_witness :
    ((sendMessage (fun _ => .tokenInvalid)
        { users := [],
          profiles := [⟨"bob", some "Bob", none, some "tok1"⟩],
          messages := [], edges := [], nextId := 0, now := 0 }
        [] "s1" ⟨"alice", "bob", "hi"⟩).2.profiles.find?
        (fun p => p.auth0Id == (⟨"alice", "bob", "hi"⟩ : SendData).receiverId)
      = some ⟨"bob", some "Bob", none, none⟩) ∧
    (sendMessage (fun _ => .tokenInvalid)
        { users := [],
          profiles := [⟨"bob", some "Bob", none, some "tok1"⟩],
          messages := [], edges := [], nextId := 0, now := 0 }
        [] "s1" ⟨"alice", "bob", "hi"⟩).1.any isSendError = false ∧
    (sendMessage (fun _ => .ok)
        (sendMessage (fun _ => .tokenInvalid)
          { users := [],
            profiles := [⟨"bob", some "Bob", none, some "tok1"⟩],
            messages := [], edges := [], nextId := 0, now := 0 }
          [] "s1" ⟨"alice", "bob", "hi"⟩).2
        [] "s2" ⟨"carol", "bob", "yo"⟩).1.any isNotifierSend = false :=
  invalid_token_selfheal (fun _ => .tokenInvalid) (fun _ => .ok) _ [] []
    "s1" "s2" ⟨"alice", "bob", "hi"⟩ ⟨"carol", "bob", "yo"⟩
    ⟨"bob", some "Bob", none, some "tok1"⟩ "tok1" (by decide) (by decide)
    (by decide) (by decide)

end Nexi
